import Mathlib

/-!
# Verification of the pendulum dynamics module

Shallow embedding of `rsbook_code/control/examples/pendulum.py` over exact
real arithmetic.  The Python class `Pendulum` holds parameters m, L, g and
optional viscosity / torque bounds; it exposes forward dynamics, inverse
dynamics, a state-derivative function, an explicit-Euler simulator and a
state-space `integrate` operator that wraps the angle into [0, 2π).

Floating-point numbers are modelled by `ℝ`; Python's `None` sentinels by
`Option ℝ`; Python's `%` on floats (with positive modulus) by
`wrap2pi x = x - 2π * ⌊x / (2π)⌋`, which agrees with the mathematical
remainder in [0, 2π).  The `simulate` while-loop is embedded by
well-founded recursion on `⌈(T - t)/dt⌉₊`; since a Lean function must be
total, the loop guard carries the extra conjunct `0 < dt` (for `dt ≤ 0`
and `t < T` the Python loop would not terminate; every claim assumes
`dt > 0`).
-/

/-- Parameters of the pendulum model: fields of the Python class set in
`__init__`.  `viscosity`, `umin`, `umax` start as `None` (here `none`),
distinguishable from zero. -/
structure Pendulum where
  m : ℝ
  L : ℝ
  g : ℝ
  viscosity : Option ℝ
  umin : Option ℝ
  umax : Option ℝ

namespace Pendulum

/-- `Pendulum.__init__(m, L, g)`: sets the three physical parameters and
initializes `viscosity`, `umin`, `umax` to `None`. -/
def init (m L g : ℝ) : Pendulum :=
  { m := m, L := L, g := g, viscosity := none, umin := none, umax := none }

/-- `stateDimension(self)`: returns 2. -/
def stateDimension (_p : Pendulum) : ℕ := 2

/-- `controlDimension(self)`: returns 1. -/
def controlDimension (_p : Pendulum) : ℕ := 1

/-- Forward dynamics `dynamics(self, theta, dtheta, u)`:
`c = cos(theta)`; (the source also computes `s = sin(theta)`, unused);
`visc = -viscosity*dtheta` if viscosity is set else `0.0`; returns
`(u + visc - m*c*g) / (L*m)`. -/
noncomputable def dynamics (p : Pendulum) (theta dtheta u : ℝ) : ℝ :=
  let c := Real.cos theta
  let m := p.m
  let L := p.L
  let visc : ℝ :=
    match p.viscosity with
    | some v => -v * dtheta
    | none => 0
  (u + visc - m * c * p.g) / (L * m)

/-- Inverse dynamics `inverse_dynamics(self, theta, dtheta, ddtheta)`:
`c = cos(theta)`; (the source also computes `s = sin(theta)`, unused);
`visc = -viscosity*dtheta` if viscosity is set else `0.0`; returns
`L*m*(ddtheta - visc + m*c*g)`. -/
noncomputable def inverse_dynamics (p : Pendulum) (theta dtheta ddtheta : ℝ) : ℝ :=
  let c := Real.cos theta
  let m := p.m
  let visc : ℝ :=
    match p.viscosity with
    | some v => -v * dtheta
    | none => 0
  p.L * m * (ddtheta - visc + m * c * p.g)

/-- The Python control argument `u` of `derivative`: either a scalar
(`int`/`float`) or a sequence (modelled as a list of reals). -/
inductive Ctrl where
  | scalar : ℝ → Ctrl
  | vec : List ℝ → Ctrl

/-- The shape contract of `derivative`: `len(x) == 2` and `u` is a scalar
or a sequence with `len(u) == 1`. -/
def validShape (x : List ℝ) (u : Ctrl) : Prop :=
  x.length = 2 ∧
    match u with
    | Ctrl.scalar _ => True
    | Ctrl.vec l => l.length = 1

/-- The scalar carried by a valid control: `u` itself when scalar, `u[0]`
when a 1-element sequence. -/
def ctrlValue (u : Ctrl) : ℝ :=
  match u with
  | Ctrl.scalar v => v
  | Ctrl.vec l => l.headD 0

/-- `derivative(self, x, u)`: asserts `len(x) == 2` and that `u` is a scalar
or has `len(u) == 1` (an `AssertionError`, modelled as `none`, otherwise);
unwraps `u` to a scalar if it is iterable; returns `(dq, dynamics(q, dq, u))`. -/
noncomputable def derivative (p : Pendulum) (x : List ℝ) (u : Ctrl) :
    Option (ℝ × ℝ) :=
  match x, u with
  | [q, dq], Ctrl.scalar v => some (dq, p.dynamics q dq v)
  | [q, dq], Ctrl.vec [v] => some (dq, p.dynamics q dq v)
  | _, _ => none

/-- Python's `y % (2π)` on reals (positive modulus): the remainder of `y`
modulo `2π` lying in `[0, 2π)`. -/
noncomputable def wrap2pi (y : ℝ) : ℝ :=
  y - 2 * Real.pi * ⌊y / (2 * Real.pi)⌋

/-- The torque clamping in `simulate`'s loop:
`u = max(u, umin)` if `umin` is set, then `u = min(u, umax)` if `umax`
is set. -/
noncomputable def clampU (p : Pendulum) (u : ℝ) : ℝ :=
  let u1 :=
    match p.umin with
    | some a => max u a
    | none => u
  match p.umax with
  | some b => min u1 b
  | none => u1

/-- The simulation trace: the Python dict of six per-sample lists keyed
`'t'`, `'x'`, `'q'`, `'dq'`, `'u'`, `'ddq'`. -/
structure Trace where
  t : List ℝ
  x : List (ℝ × ℝ)
  q : List ℝ
  dq : List ℝ
  u : List ℝ
  ddq : List ℝ

/-- The empty trace: `res` just after initialization in `simulate`. -/
def Trace.empty : Trace := ⟨[], [], [], [], [], []⟩

/-- The body of `simulate`'s `while t < T` loop, one call per iteration,
carrying the loop variables `t`, `q`, `dq`.  Each iteration queries
`u = ufunc(t, q, dq)`, clamps it, computes `ddq = dynamics(q, dq, u)`,
appends the sample to every list, then advances
`q ← q + dt*dq`, `dq ← dq + dt*ddq`, wraps `q` modulo `2π` and sets
`t ← t + dt`.  (The guard's extra conjunct `0 < dt` makes the function
total; see the module docstring.) -/
noncomputable def simLoop (p : Pendulum) (ufunc : ℝ → ℝ → ℝ → ℝ) (dt T : ℝ)
    (t q dq : ℝ) : Trace :=
  if h : t < T ∧ 0 < dt then
    let u := clampU p (ufunc t q dq)
    let ddq := p.dynamics q dq u
    let rest := simLoop p ufunc dt T (t + dt) (wrap2pi (q + dt * dq)) (dq + dt * ddq)
    ⟨t :: rest.t, (q, dq) :: rest.x, q :: rest.q, dq :: rest.dq,
      u :: rest.u, ddq :: rest.ddq⟩
  else
    Trace.empty
termination_by ⌈(T - t) / dt⌉₊
decreasing_by
  have hdt : 0 < dt := h.2
  have hx : 0 < (T - t) / dt := div_pos (by linarith [h.1]) hdt
  have hrw : (T - (t + dt)) / dt = (T - t) / dt - 1 := by
    field_simp
    ring
  rw [hrw]
  have h1 : 1 ≤ ⌈(T - t) / dt⌉₊ := Nat.ceil_pos.mpr hx
  have h2 : ⌈(T - t) / dt - 1⌉₊ ≤ ⌈(T - t) / dt⌉₊ - 1 := by
    rw [Nat.ceil_le]
    push_cast [Nat.cast_sub h1]
    linarith [Nat.le_ceil ((T - t) / dt)]
  exact lt_of_le_of_lt h2 (Nat.sub_lt (Nat.ceil_pos.mpr hx) one_pos)

/-- `simulate(self, q0, dq0, ufunc, dt, T)`: initializes `q = q0`,
`dq = dq0`, `t = 0`, the empty trace, and runs the loop. -/
noncomputable def simulate (p : Pendulum) (q0 dq0 : ℝ)
    (ufunc : ℝ → ℝ → ℝ → ℝ) (dt T : ℝ) : Trace :=
  simLoop p ufunc dt T 0 q0 dq0

/-- `integrate(self, x, dx)`: `xnext = x + dx` elementwise, then
`xnext[0] = xnext[0] % (2π)`.  States are pairs `(θ, θ′)`. -/
noncomputable def integrate (x dx : ℝ × ℝ) : ℝ × ℝ :=
  let xnext := (x.1 + dx.1, x.2 + dx.2)
  (wrap2pi xnext.1, xnext.2)

/-! ## Helper lemmas -/

lemma wrap2pi_eq_fract (y : ℝ) :
    wrap2pi y = 2 * Real.pi * Int.fract (y / (2 * Real.pi)) := by
  unfold wrap2pi Int.fract
  rw [mul_sub, mul_div_cancel₀ _ (ne_of_gt Real.two_pi_pos)]

lemma wrap2pi_nonneg (y : ℝ) : 0 ≤ wrap2pi y := by
  rw [wrap2pi_eq_fract]
  exact mul_nonneg (le_of_lt Real.two_pi_pos) (Int.fract_nonneg _)

lemma wrap2pi_lt (y : ℝ) : wrap2pi y < 2 * Real.pi := by
  rw [wrap2pi_eq_fract]
  calc 2 * Real.pi * Int.fract (y / (2 * Real.pi)) < 2 * Real.pi * 1 :=
        (mul_lt_mul_left Real.two_pi_pos).mpr (Int.fract_lt_one _)
    _ = 2 * Real.pi := mul_one _

lemma ceil_pos_succ {x : ℝ} (hx : 0 < x) : ⌈x⌉₊ = ⌈x - 1⌉₊ + 1 := by
  rcases le_or_lt 1 x with h1 | h1
  · have h := Nat.ceil_add_one (by linarith : (0 : ℝ) ≤ x - 1)
    rw [sub_add_cancel] at h
    exact h
  · rw [Nat.ceil_eq_zero.mpr (by linarith : x - 1 ≤ 0)]
    have hle : ⌈x⌉₊ ≤ 1 := Nat.ceil_le.mpr (by norm_num; linarith)
    have hge : 1 ≤ ⌈x⌉₊ := Nat.ceil_pos.mpr hx
    omega

lemma simLoop_pos (p : Pendulum) (ufunc : ℝ → ℝ → ℝ → ℝ) (dt T t q dq : ℝ)
    (h : t < T) (hdt : 0 < dt) :
    simLoop p ufunc dt T t q dq =
      (let u := clampU p (ufunc t q dq)
       let ddq := p.dynamics q dq u
       let rest := simLoop p ufunc dt T (t + dt) (wrap2pi (q + dt * dq))
         (dq + dt * ddq)
       ⟨t :: rest.t, (q, dq) :: rest.x, q :: rest.q, dq :: rest.dq,
        u :: rest.u, ddq :: rest.ddq⟩) := by
  rw [simLoop, dif_pos ⟨h, hdt⟩]

lemma simLoop_neg (p : Pendulum) (ufunc : ℝ → ℝ → ℝ → ℝ) (dt T t q dq : ℝ)
    (h : ¬ t < T) :
    simLoop p ufunc dt T t q dq = Trace.empty := by
  rw [simLoop, dif_neg (fun hc => h hc.1)]

lemma simLoop_lengths (p : Pendulum) (ufunc : ℝ → ℝ → ℝ → ℝ) (dt T : ℝ)
    (hdt : 0 < dt) (t q dq : ℝ) :
    (simLoop p ufunc dt T t q dq).t.length = ⌈(T - t) / dt⌉₊ ∧
    (simLoop p ufunc dt T t q dq).x.length = ⌈(T - t) / dt⌉₊ ∧
    (simLoop p ufunc dt T t q dq).q.length = ⌈(T - t) / dt⌉₊ ∧
    (simLoop p ufunc dt T t q dq).dq.length = ⌈(T - t) / dt⌉₊ ∧
    (simLoop p ufunc dt T t q dq).u.length = ⌈(T - t) / dt⌉₊ ∧
    (simLoop p ufunc dt T t q dq).ddq.length = ⌈(T - t) / dt⌉₊ := by
  induction t, q, dq using simLoop.induct p ufunc dt T with
  | case1 t q dq h hu hddq ih =>
    rw [simLoop_pos p ufunc dt T t q dq h.1 h.2]
    have hx : 0 < (T - t) / dt := div_pos (by linarith [h.1]) h.2
    have hrw : (T - (t + dt)) / dt = (T - t) / dt - 1 := by
      field_simp
      ring
    have hceil : ⌈(T - t) / dt⌉₊ = ⌈(T - (t + dt)) / dt⌉₊ + 1 := by
      rw [hrw]
      exact ceil_pos_succ hx
    simp only [List.length_cons, hceil]
    exact ⟨congrArg (fun n => n + 1) ih.1, congrArg (fun n => n + 1) ih.2.1,
      congrArg (fun n => n + 1) ih.2.2.1, congrArg (fun n => n + 1) ih.2.2.2.1,
      congrArg (fun n => n + 1) ih.2.2.2.2.1,
      congrArg (fun n => n + 1) ih.2.2.2.2.2⟩
  | case2 t q dq h =>
    have ht : ¬ t < T := fun hlt => h ⟨hlt, hdt⟩
    rw [simLoop_neg p ufunc dt T t q dq ht]
    have hz : ⌈(T - t) / dt⌉₊ = 0 := by
      rw [Nat.ceil_eq_zero]
      apply div_nonpos_of_nonpos_of_nonneg _ (le_of_lt hdt)
      push_neg at ht
      linarith
    simp [Trace.empty, hz]

lemma simLoop_q_cases (p : Pendulum) (ufunc : ℝ → ℝ → ℝ → ℝ) (dt T : ℝ)
    (t q dq : ℝ) :
    ∀ v ∈ (simLoop p ufunc dt T t q dq).q,
      v = q ∨ (0 ≤ v ∧ v < 2 * Real.pi) := by
  induction t, q, dq using simLoop.induct p ufunc dt T with
  | case1 t q dq h hu hddq ih =>
    rw [simLoop_pos p ufunc dt T t q dq h.1 h.2]
    intro v hv
    rcases List.mem_cons.mp hv with hv | hv
    · exact Or.inl hv
    · rcases ih v hv with hv' | hv'
      · exact Or.inr (hv' ▸ ⟨wrap2pi_nonneg _, wrap2pi_lt _⟩)
      · exact Or.inr hv'
  | case2 t q dq h =>
    rw [simLoop, dif_neg h]
    intro v hv
    exact absurd hv (by simp [Trace.empty])

lemma simLoop_u_image (p : Pendulum) (ufunc : ℝ → ℝ → ℝ → ℝ) (dt T : ℝ)
    (t q dq : ℝ) :
    ∀ v ∈ (simLoop p ufunc dt T t q dq).u, ∃ w, v = clampU p w := by
  induction t, q, dq using simLoop.induct p ufunc dt T with
  | case1 t q dq h hu hddq ih =>
    rw [simLoop_pos p ufunc dt T t q dq h.1 h.2]
    intro v hv
    rcases List.mem_cons.mp hv with hv | hv
    · exact ⟨ufunc t q dq, hv⟩
    · exact ih v hv
  | case2 t q dq h =>
    rw [simLoop, dif_neg h]
    intro v hv
    exact absurd hv (by simp [Trace.empty])

lemma clampU_bounds (p : Pendulum)
    (hab : ∀ a b, p.umin = some a → p.umax = some b → a ≤ b) (w : ℝ) :
    (∀ a, p.umin = some a → a ≤ clampU p w) ∧
    (∀ b, p.umax = some b → clampU p w ≤ b) := by
  unfold clampU
  cases hmin : p.umin with
  | none =>
    cases hmax : p.umax with
    | none => exact ⟨fun a ha => by simp at ha, fun b hb => by simp at hb⟩
    | some b =>
      exact ⟨fun a ha => by simp at ha,
        fun b' hb' => by rw [Option.some_inj.mp hb'.symm]; exact min_le_right _ _⟩
  | some a =>
    cases hmax : p.umax with
    | none =>
      exact ⟨fun a' ha' => by
        rw [Option.some_inj.mp ha'.symm]; exact le_max_right _ _,
        fun b hb => by simp at hb⟩
    | some b =>
      have hab' : a ≤ b := hab a b hmin hmax
      constructor
      · intro a' ha'
        rw [Option.some_inj.mp ha'.symm]
        exact le_min (le_max_right _ _) hab'
      · intro b' hb'
        rw [Option.some_inj.mp hb'.symm]
        exact min_le_right _ _

/-! ## Claim theorems -/

/-- C4: for every model with L·m ≠ 0 and all θ, θ′, u, `dynamics(θ, θ′, u)`
equals (u + visc − m·cos(θ)·g) / (L·m), where visc = −viscosity·θ′ when
viscosity is set and visc = 0 when it is unset. -/
theorem dynamics_formula (p : Pendulum) (hLm : p.L * p.m ≠ 0)
    (theta dtheta u : ℝ) :
    (p.viscosity = none →
      p.dynamics theta dtheta u =
        (u - p.m * Real.cos theta * p.g) / (p.L * p.m)) ∧
    (∀ nu, p.viscosity = some nu →
      p.dynamics theta dtheta u =
        (u + (-nu * dtheta) - p.m * Real.cos theta * p.g) / (p.L * p.m)) := by
  constructor
  · intro hv
    simp [dynamics, hv]
  · intro nu hv
    simp [dynamics, hv]

/-- C4 witness: the default model (m = L = 1, g = 9.8, viscosity unset)
satisfies the precondition L·m ≠ 0 and the no-viscosity formula at
θ = 0, θ′ = 0, u = 0. -/
theorem dynamics_formula_witness :
    (Pendulum.init 1 1 9.8).L * (Pendulum.init 1 1 9.8).m ≠ 0 ∧
    (Pendulum.init 1 1 9.8).dynamics 0 0 0 =
      (0 - (Pendulum.init 1 1 9.8).m * Real.cos 0 * (Pendulum.init 1 1 9.8).g) /
        ((Pendulum.init 1 1 9.8).L * (Pendulum.init 1 1 9.8).m) :=
  ⟨by norm_num [Pendulum.init],
   (dynamics_formula (Pendulum.init 1 1 9.8) (by norm_num [Pendulum.init])
      0 0 0).1 rfl⟩

/-- C5: for every model and all θ, θ′, θ″, `inverse_dynamics(θ, θ′, θ″)`
equals L·m·(θ″ − visc + m·cos(θ)·g), where visc = −viscosity·θ′ when
viscosity is set and visc = 0 when it is unset. -/
theorem inverse_dynamics_formula (p : Pendulum) (theta dtheta ddtheta : ℝ) :
    (p.viscosity = none →
      p.inverse_dynamics theta dtheta ddtheta =
        p.L * p.m * (ddtheta + p.m * Real.cos theta * p.g)) ∧
    (∀ nu, p.viscosity = some nu →
      p.inverse_dynamics theta dtheta ddtheta =
        p.L * p.m * (ddtheta - (-nu * dtheta) + p.m * Real.cos theta * p.g)) := by
  constructor
  · intro hv
    simp [inverse_dynamics, hv]
  · intro nu hv
    simp [inverse_dynamics, hv]

/-- C5 witness: a model with viscosity set to 3/10 satisfies the
viscous-case formula at θ = 0, θ′ = 1, θ″ = 2. -/
theorem inverse_dynamics_formula_witness :
    { m := 1, L := 1, g := 9.8, viscosity := some (3/10), umin := none,
      umax := none : Pendulum }.inverse_dynamics 0 1 2 =
      ({ m := 1, L := 1, g := 9.8, viscosity := some (3/10), umin := none,
         umax := none : Pendulum }).L *
      ({ m := 1, L := 1, g := 9.8, viscosity := some (3/10), umin := none,
         umax := none : Pendulum }).m *
      (2 - (-(3/10) * 1) +
        ({ m := 1, L := 1, g := 9.8, viscosity := some (3/10), umin := none,
           umax := none : Pendulum }).m * Real.cos 0 *
        ({ m := 1, L := 1, g := 9.8, viscosity := some (3/10), umin := none,
           umax := none : Pendulum }).g) :=
  (inverse_dynamics_formula
    { m := 1, L := 1, g := 9.8, viscosity := some (3/10), umin := none,
      umax := none } 0 1 2).2 (3/10) rfl

/-- C1 counterexample: for the model m = 2, L = 1, g = 1 (viscosity unset),
`inverse_dynamics(0, 0, dynamics(0, 0, 0))` does not reproduce u = 0:
dynamics gives (0 − 2·1·1)/(1·2) = −1 and inverse_dynamics returns
1·2·(−1 + 2·1·1) = 2 ≠ 0, so the composition is not the identity for
every model. -/
theorem inverse_dynamics_dynamics_counterexample :
    (Pendulum.init 2 1 1).inverse_dynamics 0 0
      ((Pendulum.init 2 1 1).dynamics 0 0 0) ≠ 0 := by
  simp [Pendulum.init, dynamics, inverse_dynamics]
  norm_num

/-- C1 (amended): the composition
`inverse_dynamics(θ, θ′, dynamics(θ, θ′, u)) = u` holds exactly (over
exact arithmetic) for every model with L·m = 1 — in particular the default
m = L = 1 — and all θ, θ′, u; for L·m ≠ 1 it fails in general, since the
composition equals u + (1 − L·m)·(visc − m·cos(θ)·g). -/
theorem inverse_dynamics_dynamics_roundtrip (p : Pendulum)
    (hLm : p.L * p.m = 1) (theta dtheta u : ℝ) :
    p.inverse_dynamics theta dtheta (p.dynamics theta dtheta u) = u := by
  cases hv : p.viscosity with
  | none =>
    simp only [dynamics, inverse_dynamics, hv]
    rw [hLm]
    ring
  | some nu =>
    simp only [dynamics, inverse_dynamics, hv]
    rw [hLm]
    ring

/-- C1 witness: the default model has L·m = 1 and the round trip at
θ = θ′ = u = 0 returns 0. -/
theorem inverse_dynamics_dynamics_roundtrip_witness :
    (Pendulum.init 1 1 9.8).L * (Pendulum.init 1 1 9.8).m = 1 ∧
    (Pendulum.init 1 1 9.8).inverse_dynamics 0 0
      ((Pendulum.init 1 1 9.8).dynamics 0 0 0) = 0 :=
  ⟨by norm_num [Pendulum.init],
   inverse_dynamics_dynamics_roundtrip (Pendulum.init 1 1 9.8)
     (by norm_num [Pendulum.init]) 0 0 0⟩

/-- C10: `integrate(x, dx)` returns the elementwise sum x + dx with the
first (angle) component reduced modulo 2π into [0, 2π) — it differs from
x.1 + dx.1 by an integer multiple of 2π and lies in [0, 2π) — and the
second component equal to x.2 + dx.2 unchanged. -/
theorem integrate_spec (x dx : ℝ × ℝ) :
    (integrate x dx).2 = x.2 + dx.2 ∧
    0 ≤ (integrate x dx).1 ∧ (integrate x dx).1 < 2 * Real.pi ∧
    ∃ k : ℤ, (integrate x dx).1 = x.1 + dx.1 - 2 * Real.pi * k :=
  ⟨rfl, wrap2pi_nonneg _, wrap2pi_lt _,
   ⟨⌊(x.1 + dx.1) / (2 * Real.pi)⌋, rfl⟩⟩

/-- C6: for a 2-element state [q, dq] and a control u that is a scalar or a
1-element sequence, `derivative` succeeds and returns the 2-vector
(dq, dynamics(q, dq, u′)) where u′ is the unwrapped scalar; in particular
the first component of the result equals x[1] = dq. -/
theorem derivative_valid (p : Pendulum) (q dq : ℝ) (u : Ctrl)
    (hu : match u with
          | Ctrl.scalar _ => True
          | Ctrl.vec l => l.length = 1) :
    p.derivative [q, dq] u = some (dq, p.dynamics q dq (ctrlValue u)) ∧
    (p.derivative [q, dq] u).map Prod.fst = some dq := by
  cases u with
  | scalar v => exact ⟨rfl, rfl⟩
  | vec l =>
    match l, hu with
    | [v], _ => exact ⟨rfl, rfl⟩

/-- C6 witness: the default model at state [1, 2] with the scalar control 5
and with the 1-element sequence control [5]. -/
theorem derivative_valid_witness :
    (Pendulum.init 1 1 9.8).derivative [1, 2] (Ctrl.scalar 5) =
      some (2, (Pendulum.init 1 1 9.8).dynamics 1 2
        (ctrlValue (Ctrl.scalar 5))) ∧
    (Pendulum.init 1 1 9.8).derivative [1, 2] (Ctrl.vec [5]) =
      some (2, (Pendulum.init 1 1 9.8).dynamics 1 2
        (ctrlValue (Ctrl.vec [5]))) :=
  ⟨(derivative_valid (Pendulum.init 1 1 9.8) 1 2 (Ctrl.scalar 5) trivial).1,
   (derivative_valid (Pendulum.init 1 1 9.8) 1 2 (Ctrl.vec [5]) rfl).1⟩

/-- C9: `derivative(x, u)` fails (returns no result, modelling the Python
`AssertionError`) exactly when x is not a 2-element sequence or u is
neither a scalar nor a 1-element sequence; under the input contract the
error branch is unreachable. -/
theorem derivative_none_iff (p : Pendulum) (x : List ℝ) (u : Ctrl) :
    p.derivative x u = none ↔ ¬ validShape x u := by
  rcases u with v | (_ | ⟨w, _ | ⟨w2, wrest⟩⟩) <;>
    rcases x with _ | ⟨a, _ | ⟨b, _ | ⟨c, rest⟩⟩⟩ <;>
      simp [derivative, validShape]

/-- C2 counterexample: starting the default model at q0 = 7 (which exceeds
2π) with dt = T = 1 produces a trace whose recorded q list is [7]: the
first sample records the unwrapped initial angle, so not every recorded q
lies in [0, 2π). -/
theorem simulate_q_range_counterexample :
    ¬ (∀ v ∈ ((Pendulum.init 1 1 9.8).simulate 7 0 (fun _ _ _ => 0) 1 1).q,
        0 ≤ v ∧ v < 2 * Real.pi) := by
  intro hall
  have htr : ((Pendulum.init 1 1 9.8).simLoop (fun _ _ _ => 0) 1 1 0 7 0).q
      = [7] := by
    rw [simLoop_pos (Pendulum.init 1 1 9.8) (fun _ _ _ => 0) 1 1 0 7 0
      (by norm_num) one_pos]
    show (7 : ℝ) :: ((Pendulum.init 1 1 9.8).simLoop (fun _ _ _ => 0) 1 1
        (0 + 1) (wrap2pi (7 + 1 * 0))
        (0 + 1 * (Pendulum.init 1 1 9.8).dynamics 7 0
          (clampU (Pendulum.init 1 1 9.8) 0))).q = [7]
    rw [simLoop_neg (Pendulum.init 1 1 9.8) (fun _ _ _ => 0) 1 1
        (0 + 1) (wrap2pi (7 + 1 * 0))
        (0 + 1 * (Pendulum.init 1 1 9.8).dynamics 7 0
          (clampU (Pendulum.init 1 1 9.8) 0)) (by norm_num)]
    rfl
  simp only [simulate] at hall
  have h7 := hall 7 (htr ▸ List.mem_singleton.mpr rfl)
  have hpi : Real.pi < 3.15 := Real.pi_lt_d2
  linarith [h7.2]

/-- C2 (amended): for every model, initial state, policy, dt > 0 and
horizon, every value recorded in the trace's q list after the first lies
in [0, 2π); the first recorded q is q0 itself, so all recorded q lie in
[0, 2π) provided the initial angle q0 does. -/
theorem simulate_q_range (p : Pendulum) (q0 dq0 : ℝ)
    (ufunc : ℝ → ℝ → ℝ → ℝ) (dt T : ℝ) (hdt : 0 < dt)
    (h0 : 0 ≤ q0) (h1 : q0 < 2 * Real.pi) :
    ∀ v ∈ (simulate p q0 dq0 ufunc dt T).q, 0 ≤ v ∧ v < 2 * Real.pi := by
  intro v hv
  rcases simLoop_q_cases p ufunc dt T 0 q0 dq0 v hv with rfl | hr
  · exact ⟨h0, h1⟩
  · exact hr

/-- C2 witness: the default model started at q0 = 0 with dt = T = 1. -/
theorem simulate_q_range_witness :
    (0 : ℝ) < 1 ∧ (0 : ℝ) ≤ 0 ∧ (0 : ℝ) < 2 * Real.pi ∧
    ∀ v ∈ ((Pendulum.init 1 1 9.8).simulate 0 0 (fun _ _ _ => 0) 1 1).q,
      0 ≤ v ∧ v < 2 * Real.pi :=
  ⟨one_pos, le_refl 0, Real.two_pi_pos,
   simulate_q_range (Pendulum.init 1 1 9.8) 0 0 (fun _ _ _ => 0) 1 1
     one_pos (le_refl 0) Real.two_pi_pos⟩

/-- C3: each torque bound that is set is enforced on every control value
recorded in the trace's u list, for any policy: if umin is set every
recorded u is ≥ umin, and if umax is set every recorded u is ≤ umax
(assuming umin ≤ umax when both are set). -/
theorem simulate_u_clamped (p : Pendulum)
    (hab : ∀ a b, p.umin = some a → p.umax = some b → a ≤ b)
    (q0 dq0 : ℝ) (ufunc : ℝ → ℝ → ℝ → ℝ) (dt T : ℝ) :
    ∀ v ∈ (simulate p q0 dq0 ufunc dt T).u,
      (∀ a, p.umin = some a → a ≤ v) ∧ (∀ b, p.umax = some b → v ≤ b) := by
  intro v hv
  obtain ⟨w, rfl⟩ := simLoop_u_image p ufunc dt T 0 q0 dq0 v hv
  exact clampU_bounds p hab w

/-- C3 witness: the default parameters with umin = −1, umax = 1 and a
policy returning 5: every recorded control respects both bounds. -/
theorem simulate_u_clamped_witness :
    (∀ a b,
      (Pendulum.mk 1 1 9.8 none (some (-1)) (some 1)).umin = some a →
      (Pendulum.mk 1 1 9.8 none (some (-1)) (some 1)).umax = some b →
        a ≤ b) ∧
    ∀ v ∈ ((Pendulum.mk 1 1 9.8 none (some (-1)) (some 1)).simulate 0 0
        (fun _ _ _ => 5) 1 1).u,
      (∀ a,
        (Pendulum.mk 1 1 9.8 none (some (-1)) (some 1)).umin = some a →
          a ≤ v) ∧
      (∀ b,
        (Pendulum.mk 1 1 9.8 none (some (-1)) (some 1)).umax = some b →
          v ≤ b) := by
  have hab : ∀ a b,
      (Pendulum.mk 1 1 9.8 none (some (-1)) (some 1)).umin = some a →
      (Pendulum.mk 1 1 9.8 none (some (-1)) (some 1)).umax = some b →
        a ≤ b := by
    intro a b ha hb
    have ha' : (-1 : ℝ) = a := Option.some_inj.mp ha
    have hb' : (1 : ℝ) = b := Option.some_inj.mp hb
    rw [← ha', ← hb']
    norm_num
  exact ⟨hab, simulate_u_clamped _ hab 0 0 (fun _ _ _ => 5) 1 1⟩

/-- C7: each iteration of simulate's loop, taken while t < T (with
dt > 0), records the pre-update sample (t, x=(q,dq), q, dq, clamped u,
ddq = dynamics(q, dq, clamped u)) at the front of the remaining trace and
recurs at t + dt with the simultaneous explicit-Euler update: the new
angle is wrap2pi(q + dt·dq) (pre-update dq) and the new velocity is
dq + dt·ddq (pre-update ddq). -/
theorem simulate_loop_iteration (p : Pendulum) (ufunc : ℝ → ℝ → ℝ → ℝ)
    (dt T t q dq : ℝ) (h : t < T) (hdt : 0 < dt) :
    simLoop p ufunc dt T t q dq =
      { t := t :: (simLoop p ufunc dt T (t + dt) (wrap2pi (q + dt * dq))
          (dq + dt * p.dynamics q dq (clampU p (ufunc t q dq)))).t,
        x := (q, dq) :: (simLoop p ufunc dt T (t + dt) (wrap2pi (q + dt * dq))
          (dq + dt * p.dynamics q dq (clampU p (ufunc t q dq)))).x,
        q := q :: (simLoop p ufunc dt T (t + dt) (wrap2pi (q + dt * dq))
          (dq + dt * p.dynamics q dq (clampU p (ufunc t q dq)))).q,
        dq := dq :: (simLoop p ufunc dt T (t + dt) (wrap2pi (q + dt * dq))
          (dq + dt * p.dynamics q dq (clampU p (ufunc t q dq)))).dq,
        u := clampU p (ufunc t q dq) ::
          (simLoop p ufunc dt T (t + dt) (wrap2pi (q + dt * dq))
            (dq + dt * p.dynamics q dq (clampU p (ufunc t q dq)))).u,
        ddq := p.dynamics q dq (clampU p (ufunc t q dq)) ::
          (simLoop p ufunc dt T (t + dt) (wrap2pi (q + dt * dq))
            (dq + dt * p.dynamics q dq (clampU p (ufunc t q dq)))).ddq } := by
  rw [simLoop_pos p ufunc dt T t q dq h hdt]

/-- C7 witness: one iteration of the loop for the default model at
t = 0 < T = 1 with dt = 1, q = dq = 0 and the zero policy. -/
theorem simulate_loop_iteration_witness :
    (0 : ℝ) < 1 ∧
    (Pendulum.init 1 1 9.8).simLoop (fun _ _ _ => 0) 1 1 0 0 0 =
      { t := 0 :: ((Pendulum.init 1 1 9.8).simLoop (fun _ _ _ => 0) 1 1 (0 + 1)
          (wrap2pi (0 + 1 * 0))
          (0 + 1 * (Pendulum.init 1 1 9.8).dynamics 0 0
            (clampU (Pendulum.init 1 1 9.8) 0))).t,
        x := (0, 0) ::
          ((Pendulum.init 1 1 9.8).simLoop (fun _ _ _ => 0) 1 1 (0 + 1)
            (wrap2pi (0 + 1 * 0))
            (0 + 1 * (Pendulum.init 1 1 9.8).dynamics 0 0
              (clampU (Pendulum.init 1 1 9.8) 0))).x,
        q := 0 :: ((Pendulum.init 1 1 9.8).simLoop (fun _ _ _ => 0) 1 1 (0 + 1)
          (wrap2pi (0 + 1 * 0))
          (0 + 1 * (Pendulum.init 1 1 9.8).dynamics 0 0
            (clampU (Pendulum.init 1 1 9.8) 0))).q,
        dq := 0 :: ((Pendulum.init 1 1 9.8).simLoop (fun _ _ _ => 0) 1 1 (0 + 1)
          (wrap2pi (0 + 1 * 0))
          (0 + 1 * (Pendulum.init 1 1 9.8).dynamics 0 0
            (clampU (Pendulum.init 1 1 9.8) 0))).dq,
        u := clampU (Pendulum.init 1 1 9.8) 0 ::
          ((Pendulum.init 1 1 9.8).simLoop (fun _ _ _ => 0) 1 1 (0 + 1)
            (wrap2pi (0 + 1 * 0))
            (0 + 1 * (Pendulum.init 1 1 9.8).dynamics 0 0
              (clampU (Pendulum.init 1 1 9.8) 0))).u,
        ddq := (Pendulum.init 1 1 9.8).dynamics 0 0
            (clampU (Pendulum.init 1 1 9.8) 0) ::
          ((Pendulum.init 1 1 9.8).simLoop (fun _ _ _ => 0) 1 1 (0 + 1)
            (wrap2pi (0 + 1 * 0))
            (0 + 1 * (Pendulum.init 1 1 9.8).dynamics 0 0
              (clampU (Pendulum.init 1 1 9.8) 0))).ddq } :=
  ⟨one_pos,
   simulate_loop_iteration (Pendulum.init 1 1 9.8) (fun _ _ _ => 0) 1 1 0 0 0
     one_pos one_pos⟩

/-- C8: for the default model (m = 1, L = 1, g = 9.8, viscosity and both
torque bounds unset), simulate(q0 = 0, dq0 = 0, zero policy, dt = 0.01,
T = 0.05) returns a trace of exactly 5 samples whose first sample has
t = 0, x = (0, 0), q = 0, dq = 0, u = 0 and
ddq = dynamics(0, 0, 0) = −9.8. -/
theorem simulate_default_scenario :
    ((Pendulum.init 1 1 9.8).simulate 0 0 (fun _ _ _ => 0) 0.01 0.05).t.length
        = 5 ∧
    ((Pendulum.init 1 1 9.8).simulate 0 0 (fun _ _ _ => 0) 0.01 0.05).x.length
        = 5 ∧
    ((Pendulum.init 1 1 9.8).simulate 0 0 (fun _ _ _ => 0) 0.01 0.05).q.length
        = 5 ∧
    ((Pendulum.init 1 1 9.8).simulate 0 0 (fun _ _ _ => 0) 0.01 0.05).dq.length
        = 5 ∧
    ((Pendulum.init 1 1 9.8).simulate 0 0 (fun _ _ _ => 0) 0.01 0.05).u.length
        = 5 ∧
    ((Pendulum.init 1 1 9.8).simulate 0 0 (fun _ _ _ => 0) 0.01 0.05).ddq.length
        = 5 ∧
    ((Pendulum.init 1 1 9.8).simulate 0 0 (fun _ _ _ => 0) 0.01 0.05).t.head?
        = some 0 ∧
    ((Pendulum.init 1 1 9.8).simulate 0 0 (fun _ _ _ => 0) 0.01 0.05).x.head?
        = some (0, 0) ∧
    ((Pendulum.init 1 1 9.8).simulate 0 0 (fun _ _ _ => 0) 0.01 0.05).q.head?
        = some 0 ∧
    ((Pendulum.init 1 1 9.8).simulate 0 0 (fun _ _ _ => 0) 0.01 0.05).dq.head?
        = some 0 ∧
    ((Pendulum.init 1 1 9.8).simulate 0 0 (fun _ _ _ => 0) 0.01 0.05).u.head?
        = some 0 ∧
    ((Pendulum.init 1 1 9.8).simulate 0 0 (fun _ _ _ => 0) 0.01 0.05).ddq.head?
        = some (-9.8) ∧
    (Pendulum.init 1 1 9.8).dynamics 0 0 0 = -9.8 := by
  have hdt : (0 : ℝ) < 0.01 := by norm_num
  have hlen := simLoop_lengths (Pendulum.init 1 1 9.8) (fun _ _ _ => 0)
    0.01 0.05 hdt 0 0 0
  have hceil : ⌈((0.05 : ℝ) - 0) / 0.01⌉₊ = 5 := by
    have h5 : ((0.05 : ℝ) - 0) / 0.01 = 5 := by norm_num
    rw [h5]
    simp
  have hstep := simLoop_pos (Pendulum.init 1 1 9.8) (fun _ _ _ => 0)
    0.01 0.05 0 0 0 (by norm_num) hdt
  have hcl : clampU (Pendulum.init 1 1 9.8) 0 = 0 := by
    simp [clampU, Pendulum.init]
  have hdy : (Pendulum.init 1 1 9.8).dynamics 0 0 0 = -9.8 := by
    norm_num [dynamics, Pendulum.init, Real.cos_zero]
  refine ⟨?_, ?_, ?_, ?_, ?_, ?_, ?_, ?_, ?_, ?_, ?_, ?_, hdy⟩
  · rw [simulate, hlen.1, hceil]
  · rw [simulate, hlen.2.1, hceil]
  · rw [simulate, hlen.2.2.1, hceil]
  · rw [simulate, hlen.2.2.2.1, hceil]
  · rw [simulate, hlen.2.2.2.2.1, hceil]
  · rw [simulate, hlen.2.2.2.2.2, hceil]
  · rw [simulate, hstep]
    rfl
  · rw [simulate, hstep]
    rfl
  · rw [simulate, hstep]
    rfl
  · rw [simulate, hstep]
    rfl
  · rw [simulate, hstep]
    rfl
  · rw [simulate, hstep]
    show some ((Pendulum.init 1 1 9.8).dynamics 0 0 0) = some (-9.8)
    rw [hdy]

end Pendulum
